import Mathlib

/-!
Shallow embedding of the clin-summ reporting utilities
(src/dashboard.py, src/compare_results.py, src/simple_metrics.py).

Text is modelled as `List Char`; Python's substring test `a in b` is
modelled by decidable list-infix (`<:+:`), `str.lower()` by mapping
`Char.toLower`, `str.split()` (no argument) by splitting on whitespace
and discarding empty tokens, and `str.strip(chars)` by dropping the
given characters from both ends.  True division that can raise
`ZeroDivisionError` is modelled as an `Option ℚ` that is `none` exactly
when the denominator is zero, and a function whose body performs such a
division returns `Option` of its result.
-/

namespace ClinSumm

/-- Text as a list of characters. -/
abbrev Text := List Char

/-- Convert a string literal to the `Text` model. -/
def chars (s : String) : Text := s.toList

/-- Python `str.lower()` (ASCII model). -/
def lower (t : Text) : Text := t.map Char.toLower

/-- Python `needle in hay` for strings: substring containment. -/
def containsSub (needle hay : Text) : Bool := decide (needle <:+: hay)

/-- Helper for `words`: accumulates the current (reversed) token. -/
def wordsAux : List Char → List Char → List Text
  | [], cur => if cur = [] then [] else [cur.reverse]
  | c :: cs, cur =>
    if c.isWhitespace then
      if cur = [] then wordsAux cs [] else cur.reverse :: wordsAux cs []
    else wordsAux cs (c :: cur)

/-- Python `str.split()` with no argument: split on runs of whitespace,
no empty tokens. -/
def words (t : Text) : List Text := wordsAux t []

/-- Python true division `a / b` on numbers: raises (`none`) iff `b = 0`. -/
def pyDiv (a b : ℚ) : Option ℚ := if b = 0 then none else some (a / b)

/-! ### src/dashboard.py -/

/-- The `conditions` vocabulary in `extract_medical_terms` (declaration order). -/
def conditionsVocab : List Text :=
  [chars "pneumonia", chars "edema", chars "effusion", chars "consolidation",
   chars "atelectasis", chars "cardiomegaly", chars "pneumothorax", chars "nodule",
   chars "mass", chars "fracture", chars "infiltrate", chars "opacity",
   chars "calcification", chars "granuloma", chars "emphysema", chars "hypertension",
   chars "diabetes", chars "asthma", chars "copd", chars "cancer"]

/-- The `anatomy` vocabulary in `extract_medical_terms` (declaration order). -/
def anatomyVocab : List Text :=
  [chars "heart", chars "lung", chars "chest", chars "cardiac", chars "pulmonary",
   chars "mediastinal", chars "pleural", chars "thorax", chars "right", chars "left",
   chars "upper", chars "lower", chars "lobe"]

/-- The `status` vocabulary in `extract_medical_terms` (declaration order). -/
def statusVocab : List Text :=
  [chars "normal", chars "abnormal", chars "acute", chars "chronic", chars "stable",
   chars "improved", chars "worsened", chars "negative", chars "positive",
   chars "clear", chars "unremarkable"]

/-- Result of `extract_medical_terms`: the `found` dict. -/
structure ExtractedTerms where
  conditions : List Text
  anatomy : List Text
  status : List Text
  deriving Repr, DecidableEq

/-- Function `extract_medical_terms(text)` from src/dashboard.py: for each
of the three vocabularies, keep the entries contained
(case-insensitively) in the text, in declaration order. -/
def extract_medical_terms (text : Text) : ExtractedTerms :=
  let text_lower := lower text
  { conditions := conditionsVocab.filter (fun c => containsSub c text_lower)
    anatomy := anatomyVocab.filter (fun a => containsSub a text_lower)
    status := statusVocab.filter (fun s => containsSub s text_lower) }

/-! A `collections.Counter` model: a Counter built from a list is a dict
whose keys appear in first-occurrence order with total occurrence
counts, and `most_common(n)` sorts descending by count with a stable
sort and keeps the first `n` entries. -/

/-- Keys of `Counter(l)` in insertion order: each element of `l` at its
first occurrence. -/
def firstOccs : List Text → List Text
  | [] => []
  | x :: xs => x :: (firstOccs xs).filter (fun y => y ≠ x)

/-- Items of `Counter(l)`: keys in first-occurrence order, with counts. -/
def countsList (l : List Text) : List (Text × Nat) :=
  (firstOccs l).map (fun x => (x, l.count x))

/-- Stable descending insertion (by count), modelling one step of
Python's stable `sorted(..., reverse=True)` inside `Counter.most_common`. -/
def insertDesc (x : Text × Nat) : List (Text × Nat) → List (Text × Nat)
  | [] => [x]
  | y :: ys => if y.2 ≤ x.2 then x :: y :: ys else y :: insertDesc x ys

/-- Stable descending sort by count. -/
def sortDesc : List (Text × Nat) → List (Text × Nat)
  | [] => []
  | x :: xs => insertDesc x (sortDesc xs)

/-- Python `Counter(l).most_common(n)`. -/
def mostCommon (n : Nat) (l : List Text) : List (Text × Nat) :=
  (sortDesc (countsList l)).take n

/-- One JSON-Lines record as the dashboard sees it: `sample.get(k, '')`
yields the field when present and `''` otherwise. -/
structure Sample where
  inputs : Option Text
  target : Option Text
  deriving Repr, DecidableEq

/-- The `findings` string taken from a sample (`sample.get('inputs', '')`). -/
def sampleFindings (s : Sample) : Text := s.inputs.getD []

/-- The `impression` string taken from a sample (`sample.get('target', '')`). -/
def sampleImpression (s : Sample) : Text := s.target.getD []

/-- The normal-classification predicate of line 85 of src/dashboard.py:
`'no acute' in imp.lower() or 'normal' in imp.lower() or 'negative' in imp.lower()`. -/
def isNormalImpression (imp : Text) : Bool :=
  containsSub (chars "no acute") (lower imp) ||
  containsSub (chars "normal") (lower imp) ||
  containsSub (chars "negative") (lower imp)

/-- The `all_conditions` list accumulated by `analyze_radiology_reports`. -/
def allConditions (samples : List Sample) : List Text :=
  (samples.map (fun s =>
    (extract_medical_terms (sampleFindings s ++ [' '] ++ sampleImpression s)).conditions)).flatten

/-- The `all_anatomy` list accumulated by `analyze_radiology_reports`. -/
def allAnatomy (samples : List Sample) : List Text :=
  (samples.map (fun s =>
    (extract_medical_terms (sampleFindings s ++ [' '] ++ sampleImpression s)).anatomy)).flatten

/-- The `all_status` list accumulated by `analyze_radiology_reports`. -/
def allStatus (samples : List Sample) : List Text :=
  (samples.map (fun s =>
    (extract_medical_terms (sampleFindings s ++ [' '] ++ sampleImpression s)).status)).flatten

/-- The dict returned by `analyze_radiology_reports`. -/
structure RadiologyReport where
  total : Nat
  normal : Nat
  abnormal : Nat
  conditions : List (Text × Nat)
  anatomy : List (Text × Nat)
  status : List (Text × Nat)
  avg_finding_len : ℚ
  avg_impression_len : ℚ
  deriving Repr, DecidableEq

/-- Function `analyze_radiology_reports(samples)` from src/dashboard.py.
The two average lengths divide by `len(all_findings)` /
`len(all_impressions)` with no guard, so the whole call raises (`none`)
on an empty collection. -/
def analyze_radiology_reports (samples : List Sample) : Option RadiologyReport := do
  let all_findings := samples.map sampleFindings
  let all_impressions := samples.map sampleImpression
  let normal_count := (all_impressions.filter isNormalImpression).length
  let afl ← pyDiv ((all_findings.map (fun f => ((words f).length : ℚ))).sum)
      (all_findings.length)
  let ail ← pyDiv ((all_impressions.map (fun i => ((words i).length : ℚ))).sum)
      (all_impressions.length)
  some { total := samples.length
         normal := normal_count
         abnormal := all_impressions.length - normal_count
         conditions := mostCommon 10 (allConditions samples)
         anatomy := mostCommon 10 (allAnatomy samples)
         status := mostCommon 5 (allStatus samples)
         avg_finding_len := afl
         avg_impression_len := ail }

/-- The topic list a single question contributes in
`analyze_health_questions` (a sample may contribute several topics). -/
def questionTopics (question : Text) : List Text :=
  let ql := lower question
  (if [chars "medication", chars "drug", chars "pill", chars "prescription"].any
      (fun w => containsSub w ql) then [chars "Medication"] else []) ++
  (if [chars "pain", chars "hurt", chars "ache"].any
      (fun w => containsSub w ql) then [chars "Pain"] else []) ++
  (if [chars "treatment", chars "therapy", chars "cure"].any
      (fun w => containsSub w ql) then [chars "Treatment"] else []) ++
  (if [chars "side effect", chars "adverse", chars "reaction"].any
      (fun w => containsSub w ql) then [chars "Side Effects"] else []) ++
  (if [chars "test", chars "diagnosis", chars "screen"].any
      (fun w => containsSub w ql) then [chars "Diagnosis"] else [])

/-- The dict returned by `analyze_health_questions`. -/
structure QuestionsReport where
  total : Nat
  topics : List (Text × Nat)
  avg_question_len : ℚ
  avg_summary_len : ℚ
  deriving Repr, DecidableEq

/-- Function `analyze_health_questions(samples)` from src/dashboard.py; like
the radiology analyzer it divides by the collection size with no guard. -/
def analyze_health_questions (samples : List Sample) : Option QuestionsReport := do
  let all_questions := samples.map sampleFindings
  let all_summaries := samples.map sampleImpression
  let topics := (samples.map (fun s => questionTopics (sampleFindings s))).flatten
  let aql ← pyDiv ((all_questions.map (fun q => ((words q).length : ℚ))).sum)
      (all_questions.length)
  let asl ← pyDiv ((all_summaries.map (fun s => ((words s).length : ℚ))).sum)
      (all_summaries.length)
  some { total := samples.length
         topics := mostCommon 5 topics
         avg_question_len := aql
         avg_summary_len := asl }

/-! ### src/compare_results.py -/

/-- The punctuation characters of `word.strip('.,;:')`. -/
def stripChars : List Char := ['.', ',', ';', ':']

/-- Python `str.strip(cs)`: remove characters of `cs` from both ends. -/
def pyStrip (cs : List Char) (t : Text) : Text :=
  ((t.dropWhile (fun c => c ∈ cs)).reverse.dropWhile (fun c => c ∈ cs)).reverse

/-- The cleaned form of a target token in `compare_summaries`:
`word.lower().strip('.,;:')`. -/
def wordClean (word : Text) : Text := pyStrip stripChars (lower word)

/-- The `key_terms` list of `compare_summaries` (src/compare_results.py,
lines 50-54): target tokens kept when the cleaned token is contained in
the lowercased findings and has length above 3. -/
def key_terms (findings impression : Text) : List Text :=
  (words impression).filter (fun word =>
    containsSub (wordClean word) (lower findings) && decide (3 < (wordClean word).length))

/-- The per-pair `compression` of `compare_summaries` (line 47):
`len(finding_words) / max(len(impression_words), 1)`. -/
def compression (findings impression : Text) : ℚ :=
  ((words findings).length : ℚ) / (max (words impression).length 1 : ℚ)

/-- The overall statistics block of `compare_summaries` (lines 92-113). -/
structure OverallStats where
  total_reports : Nat
  avg_compression : ℚ
  avg_finding : ℚ
  avg_impression : ℚ
  deriving Repr, DecidableEq

/-- Lines 92-113 of src/compare_results.py: the dataset-level averages.
`avg_compression = total_finding_words / total_impression_words` and the
two per-sample averages divide with no guard, so the computation raises
(`none`) when every target is empty or the collection is empty. -/
def compare_summaries_stats (samples : List Sample) : Option OverallStats := do
  let total_finding_words := (samples.map (fun s => (words (sampleFindings s)).length)).sum
  let total_impression_words := (samples.map (fun s => (words (sampleImpression s)).length)).sum
  let avg_compression ← pyDiv total_finding_words total_impression_words
  let avg_finding ← pyDiv total_finding_words samples.length
  let avg_impression ← pyDiv total_impression_words samples.length
  some { total_reports := samples.length
         avg_compression := avg_compression
         avg_finding := avg_finding
         avg_impression := avg_impression }

/-! ### src/simple_metrics.py -/

/-- One record of a `result.jsonl` file; `item['target']` /
`item['output']` raise a `KeyError` when the field is missing. -/
structure ResultRecord where
  target : Option Text
  output : Option Text
  deriving Repr, DecidableEq

/-- List comprehension `references = [item['target'] for item in data]`:
raises (`none`) as a whole if any record lacks the field. -/
def getReferences (data : List ResultRecord) : Option (List Text) :=
  data.mapM (fun item => item.target)

/-- List comprehension `predictions = [item['output'] for item in data]`. -/
def getPredictions (data : List ResultRecord) : Option (List Text) :=
  data.mapM (fun item => item.output)

/-- Outcomes of the three external metric computations in
`calculate_metrics_from_file`: each try-block either succeeds with its
scores or raises (`none`).  The ROUGE block assigns its three entries
together, so it succeeds or fails as a whole. -/
structure MetricOutcomes where
  bleu : Option ℚ
  rouge : Option (ℚ × ℚ × ℚ)
  bertscore : Option ℚ
  deriving Repr, DecidableEq

/-- The `metrics` dict built by `calculate_metrics_from_file`
(src/simple_metrics.py, lines 36-79): each metric is attempted inside
its own try/except, a failure only skips that metric's entries, and the
later metrics are still attempted. -/
def calculate_metrics (o : MetricOutcomes) : List (String × ℚ) :=
  (match o.bleu with
   | some v => [("BLEU", v)]
   | none => []) ++
  (match o.rouge with
   | some (r1, r2, rl) => [("ROUGE-1", r1), ("ROUGE-2", r2), ("ROUGE-L", rl)]
   | none => []) ++
  (match o.bertscore with
   | some v => [("BERTScore", v)]
   | none => [])

/-! ### Definitions written from the specification's words, for
comparison with the source (refinement of C5) -/

/-- Modelled from the spec: the cleaned form of a target token as the
specification's sentence reads, stripping trailing punctuation only
(nothing from the front), then lowercasing. -/
def specTrailingClean (word : Text) : Text :=
  ((lower word).reverse.dropWhile (fun c => c ∈ stripChars)).reverse

/-- Modelled from the spec: the preserved-term count as the
specification words it, counting target tokens whose trailing-stripped
lowercase form has length above 3 and occurs in the lowercased input. -/
def specPreservedCount (findings impression : Text) : Nat :=
  ((words impression).filter (fun w =>
    containsSub (specTrailingClean w) (lower findings) &&
    decide (3 < (specTrailingClean w).length))).length

/-- Well-formedness of a frequency table derived from an accumulated
term list: at most `n` rows, sorted descending by count, and for every
count value its rows appear in the order of `countsList accumulated`,
i.e. first-encountered order (stability of the sort). -/
def FreqTableOK (n : Nat) (accumulated : List Text) (table : List (Text × Nat)) : Prop :=
  table.length ≤ n ∧
  table.Pairwise (fun p q => q.2 ≤ p.2) ∧
  ∀ c : Nat, table.filter (fun p => p.2 == c) <+:
    (countsList accumulated).filter (fun p => p.2 == c)

/-! ### Helper lemmas -/

theorem containsSub_iff (needle hay : Text) :
    containsSub needle hay = true ↔ needle <:+: hay := by
  simp [containsSub]

lemma mem_insertDesc (x z : Text × Nat) (l : List (Text × Nat)) :
    z ∈ insertDesc x l ↔ z = x ∨ z ∈ l := by
  induction l with
  | nil => simp [insertDesc]
  | cons y ys ih =>
    by_cases h : y.2 ≤ x.2
    · simp [insertDesc, h]
    · simp [insertDesc, h, ih]
      tauto

lemma sorted_insertDesc (x : Text × Nat) (l : List (Text × Nat))
    (h : l.Pairwise (fun p q => q.2 ≤ p.2)) :
    (insertDesc x l).Pairwise (fun p q => q.2 ≤ p.2) := by
  induction l with
  | nil => simp [insertDesc]
  | cons y ys ih =>
    rcases List.pairwise_cons.mp h with ⟨hy, hys⟩
    by_cases hc : y.2 ≤ x.2
    · rw [insertDesc, if_pos hc]
      refine List.pairwise_cons.mpr ⟨?_, h⟩
      intro z hz
      rcases List.mem_cons.mp hz with rfl | hz
      · exact hc
      · exact le_trans (hy z hz) hc
    · rw [insertDesc, if_neg hc]
      refine List.pairwise_cons.mpr ⟨?_, ih hys⟩
      intro z hz
      rcases (mem_insertDesc x z ys).mp hz with rfl | hz
      · exact le_of_not_le hc
      · exact hy z hz

lemma sorted_sortDesc (l : List (Text × Nat)) :
    (sortDesc l).Pairwise (fun p q => q.2 ≤ p.2) := by
  induction l with
  | nil => simp [sortDesc]
  | cons x xs ih => exact sorted_insertDesc x (sortDesc xs) ih

lemma filter_insertDesc (c : Nat) (x : Text × Nat) (l : List (Text × Nat)) :
    (insertDesc x l).filter (fun p => p.2 == c) =
      if x.2 = c then x :: l.filter (fun p => p.2 == c)
      else l.filter (fun p => p.2 == c) := by
  induction l with
  | nil => by_cases h : x.2 = c <;> simp [insertDesc, List.filter_cons, h]
  | cons y ys ih =>
    by_cases hc : y.2 ≤ x.2
    · rw [insertDesc, if_pos hc]
      by_cases hx : x.2 = c <;> simp [List.filter_cons, hx]
    · rw [insertDesc, if_neg hc]
      by_cases hx : x.2 = c
      · have hy : ¬ (y.2 = c) := by omega
        simp [List.filter_cons, hx, hy, ih]
      · by_cases hy : y.2 = c <;> simp [List.filter_cons, hx, hy, ih]

lemma filter_sortDesc (c : Nat) (l : List (Text × Nat)) :
    (sortDesc l).filter (fun p => p.2 == c) = l.filter (fun p => p.2 == c) := by
  induction l with
  | nil => simp [sortDesc]
  | cons x xs ih =>
    rw [sortDesc, filter_insertDesc]
    by_cases hx : x.2 = c <;> simp [List.filter_cons, hx, ih]

lemma filter_isPrefixOf (p : Text × Nat → Bool) {l₁ l₂ : List (Text × Nat)} (h : l₁ <+: l₂) :
    l₁.filter p <+: l₂.filter p := by
  obtain ⟨t, rfl⟩ := h
  exact ⟨t.filter p, (List.filter_append _ _).symm⟩

lemma mostCommon_ok (n : Nat) (l : List Text) : FreqTableOK n l (mostCommon n l) := by
  refine ⟨?_, ?_, fun c => ?_⟩
  · exact List.length_take_le _ _
  · exact (sorted_sortDesc (countsList l)).sublist (List.take_sublist n _)
  · rw [mostCommon]
    have ht : (sortDesc (countsList l)).take n <+: sortDesc (countsList l) :=
      ⟨(sortDesc (countsList l)).drop n, List.take_append_drop n _⟩
    have h := filter_isPrefixOf (fun p => p.2 == c) ht
    rwa [filter_sortDesc] at h

lemma countsList_keys (l : List Text) : (countsList l).map Prod.fst = firstOccs l := by
  rw [countsList, List.map_map]
  exact List.map_id _

lemma analyze_radiology_nonempty (samples : List Sample) (h : samples.length ≠ 0) :
    analyze_radiology_reports samples = some
      { total := samples.length
        normal := ((samples.map sampleImpression).filter isNormalImpression).length
        abnormal := samples.length -
          ((samples.map sampleImpression).filter isNormalImpression).length
        conditions := mostCommon 10 (allConditions samples)
        anatomy := mostCommon 10 (allAnatomy samples)
        status := mostCommon 5 (allStatus samples)
        avg_finding_len :=
          ((samples.map sampleFindings).map (fun f => ((words f).length : ℚ))).sum /
            (samples.length : ℚ)
        avg_impression_len :=
          ((samples.map sampleImpression).map (fun i => ((words i).length : ℚ))).sum /
            (samples.length : ℚ) } := by
  have hq : ((samples.length : ℕ) : ℚ) ≠ 0 := Nat.cast_ne_zero.mpr h
  simp [analyze_radiology_reports, pyDiv, hq]

lemma analyze_questions_nonempty (samples : List Sample) (h : samples.length ≠ 0) :
    analyze_health_questions samples = some
      { total := samples.length
        topics := mostCommon 5 ((samples.map (fun s => questionTopics (sampleFindings s))).flatten)
        avg_question_len :=
          ((samples.map sampleFindings).map (fun q => ((words q).length : ℚ))).sum /
            (samples.length : ℚ)
        avg_summary_len :=
          ((samples.map sampleImpression).map (fun s => ((words s).length : ℚ))).sum /
            (samples.length : ℚ) } := by
  have hq : ((samples.length : ℕ) : ℚ) ≠ 0 := Nat.cast_ne_zero.mpr h
  simp [analyze_health_questions, pyDiv, hq]

lemma analyze_single_empty :
    analyze_radiology_reports [{ inputs := none, target := none }] =
      some { total := 1, normal := 0, abnormal := 1, conditions := [], anatomy := [],
             status := [], avg_finding_len := 0, avg_impression_len := 0 } := by
  have h1 : (List.map (fun f => ((words f).length : ℚ))
      (List.map sampleFindings [({ inputs := none, target := none } : Sample)])).sum = 0 := by
    norm_num [sampleFindings, words, wordsAux]
  have h2 : (List.map (fun i => ((words i).length : ℚ))
      (List.map sampleImpression [({ inputs := none, target := none } : Sample)])).sum = 0 := by
    norm_num [sampleImpression, words, wordsAux]
  simp [analyze_radiology_reports, h1, h2, pyDiv]
  all_goals refine ⟨by decide, by decide, by decide, by decide⟩

lemma analyze_q_single_empty :
    analyze_health_questions [{ inputs := none, target := none }] =
      some { total := 1, topics := [], avg_question_len := 0, avg_summary_len := 0 } := by
  have h1 : (List.map (fun q => ((words q).length : ℚ))
      (List.map sampleFindings [({ inputs := none, target := none } : Sample)])).sum = 0 := by
    norm_num [sampleFindings, words, wordsAux]
  have h2 : (List.map (fun s => ((words s).length : ℚ))
      (List.map sampleImpression [({ inputs := none, target := none } : Sample)])).sum = 0 := by
    norm_num [sampleImpression, words, wordsAux]
  simp [analyze_health_questions, h1, h2, pyDiv]
  all_goals decide

/-! ### Claim theorems -/

/-- Claim C1 (code_bug evidence): the derived statistics are NOT guarded
against division by zero.  `analyze_radiology_reports` and
`analyze_health_questions` raise (`none`) on the empty collection, and
the overall statistics of `compare_summaries` raise on a collection
whose only target text is empty. -/
theorem unguarded_average_divisions_raise :
    analyze_radiology_reports [] = none ∧
    analyze_health_questions [] = none ∧
    compare_summaries_stats
      [{ inputs := some (chars "low lung volumes"), target := some (chars "") }] = none := by
  have hw : words (sampleImpression
      ({ inputs := some (chars "low lung volumes"), target := some (chars "") } : Sample)) = [] := by
    decide
  refine ⟨by simp [analyze_radiology_reports, pyDiv],
          by simp [analyze_health_questions, pyDiv], ?_⟩
  simp [compare_summaries_stats, hw, pyDiv]

/-- Claim C2 (code_bug evidence): a record missing both required fields
does not make report generation fail; `analyze_radiology_reports`
substitutes the empty string for the missing fields and returns an
ordinary report that counts the malformed record.  (Only
`calculate_metrics_from_file` raises on a missing `target`, and its
`KeyError` names the key, not the record index.) -/
theorem malformed_record_silently_defaulted :
    analyze_radiology_reports [{ inputs := none, target := none }] =
      some { total := 1, normal := 0, abnormal := 1, conditions := [], anatomy := [],
             status := [], avg_finding_len := 0, avg_impression_len := 0 } ∧
    getReferences [{ target := none, output := some (chars "x") }] = none :=
  ⟨analyze_single_empty, rfl⟩

/-- Claim C3: a target is classified normal exactly when its lowercase
form contains one of "no acute", "normal", "negative"; the spec's two
example targets classify as normal and abnormal respectively. -/
theorem normal_classification_characterised :
    (∀ imp : Text, isNormalImpression imp = true ↔
      (chars "no acute" <:+: lower imp ∨ chars "normal" <:+: lower imp ∨
       chars "negative" <:+: lower imp)) ∧
    isNormalImpression (chars "No acute cardiopulmonary abnormality") = true ∧
    isNormalImpression (chars "Right upper lobe mass suspicious for malignancy") = false := by
  refine ⟨fun imp => ?_, by decide, by decide⟩
  simp [isNormalImpression, containsSub]
  tauto

/-- Claim C4 (counterexample): on the spec's example text the anatomy
list is not `["right","lower","lobe"]` — the entry "thorax" is also
returned, because "thorax" is a substring of "pneumothorax". -/
theorem extract_terms_example_refuted :
    (extract_medical_terms (chars "Right lower lobe consolidation, no pneumothorax")).anatomy ≠
      [chars "right", chars "lower", chars "lobe"] ∧
    extract_medical_terms (chars "Right lower lobe consolidation, no pneumothorax") =
      { conditions := [chars "consolidation", chars "pneumothorax"],
        anatomy := [chars "thorax", chars "right", chars "lower", chars "lobe"],
        status := [] } := by
  decide

/-- Claim C4 (amended): `extract_medical_terms` returns, per category,
exactly the vocabulary entries occurring case-insensitively as
substrings of the text, in vocabulary declaration order; on the example
text the conditions are ["consolidation","pneumothorax"], the anatomy is
["thorax","right","lower","lobe"] (the entry "thorax" matches inside
"pneumothorax"), and the status list is empty. -/
theorem extract_terms_characterised :
    (∀ text : Text,
      ((extract_medical_terms text).conditions.Sublist conditionsVocab ∧
       (extract_medical_terms text).anatomy.Sublist anatomyVocab ∧
       (extract_medical_terms text).status.Sublist statusVocab) ∧
      (∀ v, v ∈ (extract_medical_terms text).conditions ↔
        v ∈ conditionsVocab ∧ v <:+: lower text) ∧
      (∀ v, v ∈ (extract_medical_terms text).anatomy ↔
        v ∈ anatomyVocab ∧ v <:+: lower text) ∧
      (∀ v, v ∈ (extract_medical_terms text).status ↔
        v ∈ statusVocab ∧ v <:+: lower text)) ∧
    extract_medical_terms (chars "Right lower lobe consolidation, no pneumothorax") =
      { conditions := [chars "consolidation", chars "pneumothorax"],
        anatomy := [chars "thorax", chars "right", chars "lower", chars "lobe"],
        status := [] } := by
  refine ⟨fun text => ⟨⟨List.filter_sublist _, List.filter_sublist _, List.filter_sublist _⟩,
    ?_, ?_, ?_⟩, by decide⟩ <;>
  · intro v
    simp [extract_medical_terms, List.mem_filter, containsSub]

/-- Claim C5 (counterexample): the code strips the punctuation set from
BOTH ends of a token (`str.strip`), not only trailing punctuation: on
input "test here" and target "...test" the code counts 1 preserved term
while the trailing-only reading of the claim counts 0. -/
theorem preserved_terms_trailing_only_refuted :
    (key_terms (chars "test here") (chars "...test")).length = 1 ∧
    specPreservedCount (chars "test here") (chars "...test") = 0 := by
  decide

/-- Claim C5 (amended): the preserved-term count equals the number of
target tokens whose form after stripping the punctuation set {.,;:}
from BOTH ends and lowercasing has length above 3 and occurs as a
substring of the lowercased input. -/
theorem preserved_terms_characterised :
    ∀ findings impression : Text,
      ((key_terms findings impression).length =
        (words impression).countP (fun w =>
          decide (wordClean w <:+: lower findings ∧ 3 < (wordClean w).length))) ∧
      (∀ w, w ∈ key_terms findings impression ↔
        w ∈ words impression ∧ wordClean w <:+: lower findings ∧ 3 < (wordClean w).length) := by
  intro f i
  constructor
  · rw [key_terms, ← List.countP_eq_length_filter]
    congr 1
    funext w
    simp [containsSub]
  · intro w
    simp [key_terms, List.mem_filter, containsSub]

/-- Claim C6: every frequency table of the two report builders has at
most its top-N bound of rows (10 for conditions/anatomy, 5 for
status/topics), is sorted descending by count, and lists rows of equal
count in the order of `countsList`, whose keys are in first-encountered
order. -/
theorem frequency_tables_sorted_truncated_stable :
    (∀ l : List Text, (countsList l).map Prod.fst = firstOccs l) ∧
    ∀ (samples : List Sample) (r : RadiologyReport) (q : QuestionsReport),
      (analyze_radiology_reports samples = some r →
        FreqTableOK 10 (allConditions samples) r.conditions ∧
        FreqTableOK 10 (allAnatomy samples) r.anatomy ∧
        FreqTableOK 5 (allStatus samples) r.status) ∧
      (analyze_health_questions samples = some q →
        FreqTableOK 5 ((samples.map (fun s => questionTopics (sampleFindings s))).flatten)
          q.topics) := by
  refine ⟨countsList_keys, ?_⟩
  intro samples r q
  constructor
  · intro h
    rcases samples with _ | ⟨s, ss⟩
    · simp [analyze_radiology_reports, pyDiv] at h
    · rw [analyze_radiology_nonempty (s :: ss) (by simp)] at h
      obtain rfl := Option.some_inj.mp h
      exact ⟨mostCommon_ok _ _, mostCommon_ok _ _, mostCommon_ok _ _⟩
  · intro h
    rcases samples with _ | ⟨s, ss⟩
    · simp [analyze_health_questions, pyDiv] at h
    · rw [analyze_questions_nonempty (s :: ss) (by simp)] at h
      obtain rfl := Option.some_inj.mp h
      exact mostCommon_ok _ _

/-- Witness for C6: the frequency-table properties hold of the concrete
reports produced for a one-record collection. -/
theorem frequency_tables_sorted_truncated_stable_witness :
    (FreqTableOK 10 (allConditions [{ inputs := none, target := none }]) [] ∧
     FreqTableOK 10 (allAnatomy [{ inputs := none, target := none }]) [] ∧
     FreqTableOK 5 (allStatus [{ inputs := none, target := none }]) []) ∧
    FreqTableOK 5 ((([{ inputs := none, target := none }] : List Sample).map
      (fun s => questionTopics (sampleFindings s))).flatten) [] :=
  ⟨(frequency_tables_sorted_truncated_stable.2 [{ inputs := none, target := none }]
      { total := 1, normal := 0, abnormal := 1, conditions := [], anatomy := [],
        status := [], avg_finding_len := 0, avg_impression_len := 0 }
      { total := 1, topics := [], avg_question_len := 0, avg_summary_len := 0 }).1
      analyze_single_empty,
   (frequency_tables_sorted_truncated_stable.2 [{ inputs := none, target := none }]
      { total := 1, normal := 0, abnormal := 1, conditions := [], anatomy := [],
        status := [], avg_finding_len := 0, avg_impression_len := 0 }
      { total := 1, topics := [], avg_question_len := 0, avg_summary_len := 0 }).2
      analyze_q_single_empty⟩

/-- Claim C7: the per-pair compression equals the input word count
divided by `max(target word count, 1)`, and for a target with word
count 0 it is defined and equals the input word count. -/
theorem compression_per_pair_guarded :
    ∀ findings impression : Text,
      compression findings impression =
        ((words findings).length : ℚ) / (max (words impression).length 1 : ℚ) ∧
      ((words impression).length = 0 →
        compression findings impression = ((words findings).length : ℚ)) := by
  intro f i
  refine ⟨rfl, fun h => ?_⟩
  simp [compression, h]

/-- Witness for C7 at a concrete pair with an empty target. -/
theorem compression_per_pair_guarded_witness :
    (words (chars "")).length = 0 ∧
    compression (chars "low lung volumes") (chars "") =
      ((words (chars "low lung volumes")).length : ℚ) :=
  ⟨by decide, (compression_per_pair_guarded (chars "low lung volumes") (chars "")).2 (by decide)⟩

/-- Claim C8: each external metric's entries appear in the returned
metrics mapping exactly when that metric's computation succeeded,
whatever happened to the other metrics. -/
theorem metric_failures_isolated :
    ∀ o : MetricOutcomes,
      (("BLEU" ∈ (calculate_metrics o).map Prod.fst) ↔ o.bleu.isSome = true) ∧
      (("ROUGE-1" ∈ (calculate_metrics o).map Prod.fst) ↔ o.rouge.isSome = true) ∧
      (("ROUGE-2" ∈ (calculate_metrics o).map Prod.fst) ↔ o.rouge.isSome = true) ∧
      (("ROUGE-L" ∈ (calculate_metrics o).map Prod.fst) ↔ o.rouge.isSome = true) ∧
      (("BERTScore" ∈ (calculate_metrics o).map Prod.fst) ↔ o.bertscore.isSome = true) := by
  rintro ⟨b, r, t⟩
  rcases b with _ | b <;> rcases r with _ | ⟨⟨r1, r2, rl⟩⟩ <;> rcases t with _ | t <;>
    simp [calculate_metrics]

/-- Claim C9 (counterexample): for the empty collection no report is
returned at all — both builders raise on a division by the collection
size — so the claim fails at size 0. -/
theorem report_builder_empty_collection_refuted :
    analyze_radiology_reports [] = none ∧ analyze_health_questions [] = none :=
  ⟨by simp [analyze_radiology_reports, pyDiv], by simp [analyze_health_questions, pyDiv]⟩

/-- Claim C9 (amended): for every NONEMPTY sample collection of size N
both builders return a report whose totals field is N, and the normal
count plus the abnormal count is also N. -/
theorem report_totals_on_nonempty :
    ∀ samples : List Sample, samples ≠ [] →
      ∃ (r : RadiologyReport) (q : QuestionsReport),
        analyze_radiology_reports samples = some r ∧
        analyze_health_questions samples = some q ∧
        r.total = samples.length ∧ r.normal + r.abnormal = samples.length ∧
        q.total = samples.length := by
  intro samples h
  have h0 : samples.length ≠ 0 := fun hl => h (List.length_eq_zero.mp hl)
  refine ⟨_, _, analyze_radiology_nonempty samples h0, analyze_questions_nonempty samples h0,
    rfl, ?_, rfl⟩
  show ((samples.map sampleImpression).filter isNormalImpression).length +
    (samples.length - ((samples.map sampleImpression).filter isNormalImpression).length) =
    samples.length
  have hle : ((samples.map sampleImpression).filter isNormalImpression).length ≤
      samples.length := by
    calc ((samples.map sampleImpression).filter isNormalImpression).length
        ≤ (samples.map sampleImpression).length := List.length_filter_le _ _
      _ = samples.length := List.length_map _ _
  omega

/-- Witness for C9 at a concrete one-record collection. -/
theorem report_totals_on_nonempty_witness :
    (([{ inputs := none, target := none }] : List Sample) ≠ []) ∧
    ∃ (r : RadiologyReport) (q : QuestionsReport),
      analyze_radiology_reports [{ inputs := none, target := none }] = some r ∧
      analyze_health_questions [{ inputs := none, target := none }] = some q ∧
      r.total = 1 ∧ r.normal + r.abnormal = 1 ∧ q.total = 1 :=
  ⟨by decide, report_totals_on_nonempty [{ inputs := none, target := none }] (by decide)⟩

/-- Claim C10: any target containing the word "abnormal" (any letter
case, i.e. "abnormal" occurs in its lowercase form) is classified
normal, because "normal" is a substring of "abnormal" and the
classifier tests substring containment only. -/
theorem abnormal_wording_counted_normal :
    ∀ imp : Text, chars "abnormal" <:+: lower imp → isNormalImpression imp = true := by
  intro imp h
  have hn : chars "normal" <:+: lower imp :=
    List.IsInfix.trans (by decide) h
  simp [isNormalImpression, containsSub]
  tauto

/-- Witness for C10 at a concrete explicitly-abnormal target. -/
theorem abnormal_wording_counted_normal_witness :
    chars "abnormal" <:+: lower (chars "Abnormal cardiac silhouette") ∧
    isNormalImpression (chars "Abnormal cardiac silhouette") = true :=
  ⟨by decide, abnormal_wording_counted_normal (chars "Abnormal cardiac silhouette") (by decide)⟩

end ClinSumm
